import Mathlib

/-!
Verification development for the SIEM rules migration service
(siem_migrations/rules/service/rule_migrations_service.ts).

The service implementation file is not part of the available sources; only
its unit test file is. The definitions below are therefore modelled from
the specification (spec.md) of the service, with every remotely observable
behaviour (network calls, their arguments and order, notifications,
returned values) pinned to what the unit tests in
rule_migrations_service.test.ts assert. Network interaction is embedded as
explicit call traces: each operation is a pure function that returns its
result together with the ordered list of remote API calls it issues and
the notifications it emits.
-/

namespace SiemRulesMigrations

/-- Modelled from the spec: an opaque rule descriptor submitted to
`createRuleMigration` (the spec treats the payload elements as opaque;
the tests use objects such as one with an id field). -/
structure RuleDescriptor where
  id : String
deriving DecidableEq, Repr

/-- Modelled from the spec: an opaque resource descriptor submitted to
`upsertMigrationResources`. -/
structure ResourceDescriptor where
  id : String
deriving DecidableEq, Repr

/-- Modelled from the spec: one remote API call issued by the batching
operations, recorded in call order. Per the unit tests, the create call
carries no rules (the test asserts it is called with an empty object), so
its payload list is what the service passes along with it. -/
inductive ApiCall where
  | create (rules : List RuleDescriptor)
  | addRules (migrationId : String) (body : List RuleDescriptor)
  | upsertResources (migrationId : String) (body : List ResourceDescriptor)
deriving DecidableEq, Repr

/-- Payload of a create call, when the call is one. -/
def ApiCall.createdBody : ApiCall → Option (List RuleDescriptor)
  | .create rules => some rules
  | .addRules _ _ => none
  | .upsertResources _ _ => none

/-- Migration id and body of an add-rules call, when the call is one. -/
def ApiCall.addRulesOf : ApiCall → Option (String × List RuleDescriptor)
  | .addRules mid body => some (mid, body)
  | .create _ => none
  | .upsertResources _ _ => none

/-- Migration id and body of an upsert-resources call, when the call is one. -/
def ApiCall.upsertOf : ApiCall → Option (String × List ResourceDescriptor)
  | .upsertResources mid body => some (mid, body)
  | .create _ => none
  | .addRules _ _ => none

/-- Whether the call is a create call. -/
def ApiCall.isCreate : ApiCall → Bool
  | .create _ => true
  | .addRules _ _ => false
  | .upsertResources _ _ => false

/-- Modelled from the spec: the batch limit used by the service
(spec section 4.1; the tests batch in chunks of 50). -/
def ITEMS_PER_BATCH : Nat := 50

/-- Fuel-driven worker for `listChunk`: peels off the first `B` elements
as one chunk and recurses on the rest. The fuel only bounds the recursion
depth; with fuel at least the length of the list and a positive chunk
size it never runs out. -/
def listChunkFuel (B : Nat) : Nat → List α → List (List α)
  | _, [] => []
  | 0, _ :: _ => []
  | fuel + 1, x :: xs => (x :: xs).take B :: listChunkFuel B fuel ((x :: xs).drop B)

/-- Modelled from the spec: splitting a list into consecutive chunks of
size `B` (the last chunk may be shorter), as the lodash chunk helper the
batching operations rely on. -/
def listChunk (B : Nat) (l : List α) : List (List α) :=
  if B = 0 then [] else listChunkFuel B l.length l

/-- Modelled from the spec: errors the batching operations fail with.
The empty-input case corresponds to the EMPTY_RULES_ERROR message the
tests assert. -/
inductive ServiceError where
  | emptyRules
deriving DecidableEq, Repr

/-- Modelled from the spec: `createRuleMigration(body)` (spec section 4.1,
pinned by the unit tests). It fails synchronously on an empty body with
the empty-rules error, issuing no call. Otherwise it issues one create
call with an empty payload, obtains the migration id `remoteId` from the
remote response, then submits every chunk of the body, in order, through
add-rules calls carrying that id, and returns the id. `remoteId` stands
for the id the remote create endpoint answers with. -/
def createRuleMigration (remoteId : String) (body : List RuleDescriptor) :
    Except ServiceError String × List ApiCall :=
  if body.isEmpty then (.error .emptyRules, [])
  else
    (.ok remoteId,
      ApiCall.create [] ::
        (listChunk ITEMS_PER_BATCH body).map (fun c => ApiCall.addRules remoteId c))

/-- Modelled from the spec: `upsertMigrationResources(migrationId, body)`
(spec section 4.1, pinned by the unit tests). It fails synchronously on an
empty body with the empty-rules error, issuing no call; otherwise it
submits every chunk of the body, in order, through upsert calls carrying
the given migration id. -/
def upsertMigrationResources (migrationId : String) (body : List ResourceDescriptor) :
    Except ServiceError Unit × List ApiCall :=
  if body.isEmpty then (.error .emptyRules, [])
  else
    (.ok (),
      (listChunk ITEMS_PER_BATCH body).map (fun c => ApiCall.upsertResources migrationId c))

/-- Modelled from the spec: the finite status set of a migration job
(spec section 3). -/
inductive SiemMigrationTaskStatus where
  | pending
  | running
  | finished
  | interrupted
  | error
  | stopped
deriving DecidableEq, Repr

/-- Modelled from the spec: the last-execution record of a job (spec
sections 3 and 6): the connector the job last ran with, the
matching-skip flag, and an optional recorded error. -/
structure LastExecution where
  connector_id : Option String
  skip_prebuilt_rules_matching : Option Bool
  error : Option String
deriving DecidableEq, Repr

/-- Modelled from the spec: one entry of the remote list-all-statuses
response (spec section 6). -/
structure MigrationStats where
  id : String
  status : SiemMigrationTaskStatus
  last_execution : Option LastExecution
deriving DecidableEq, Repr

/-- Modelled from the spec: the client-side view model of a job, the
remote entry augmented with the stable 1-based display number
(spec section 3, JobStats). -/
structure MigrationTaskStats where
  id : String
  status : SiemMigrationTaskStatus
  last_execution : Option LastExecution
  number : Nat
deriving DecidableEq, Repr

/-- Modelled from the spec: the retry filter an explicit start may carry
(the tests use a not-fully-translated filter). -/
inductive SiemMigrationRetryFilter where
  | failed
  | notFullyTranslated
deriving DecidableEq, Repr

/-- Modelled from the spec: tracing preferences read from the preference
store (the tests store a LangSmith project and api key). -/
structure TraceOptions where
  langSmithProject : String
  langSmithApiKey : String
deriving DecidableEq, Repr

/-- Modelled from the spec: the tracing options attached to a remote
start request, derived from the stored trace options. -/
structure LangSmithOptions where
  project_name : String
  api_key : String
deriving DecidableEq, Repr

/-- Conversion of stored trace options into request tracing options, as
the tests pin it (project name and api key are carried over). -/
def langSmithOf (t : TraceOptions) : LangSmithOptions :=
  ⟨t.langSmithProject, t.langSmithApiKey⟩

/-- Modelled from the spec: the settings object of a remote start request
(spec section 6). -/
structure StartMigrationSettings where
  connectorId : String
  skipPrebuiltRulesMatching : Option Bool
deriving DecidableEq, Repr

/-- Modelled from the spec: a remote start request (spec section 6): the
migration id, the settings, an optional retry filter and optional tracing
options. An absent optional field is `none`. -/
structure StartMigrationRequest where
  migrationId : String
  settings : StartMigrationSettings
  retry : Option SiemMigrationRetryFilter
  langSmithOptions : Option LangSmithOptions
deriving DecidableEq, Repr

/-- Modelled from the spec: the notification categories the service emits
(spec section 6): success for one finished job, missing capabilities, and
no connector configured. -/
inductive Notice where
  | success (migrationId : String)
  | missingCapabilities
  | noConnector
deriving DecidableEq, Repr

/-- Modelled from the spec: resolution of the execution-engine id used to
resume an interrupted job (spec section 4.3, precondition 3): the
connector recorded in the last execution when present, otherwise the one
from the preference store. -/
def resolveConnector (pref : Option String) (s : MigrationStats) : Option String :=
  (s.last_execution.bind (fun le => le.connector_id)).or pref

/-- Whether the last execution of the entry records an error
(spec section 4.3, precondition 1). -/
def hasRecordedError (s : MigrationStats) : Bool :=
  match s.last_execution with
  | some le => le.error.isSome
  | none => false

/-- Modelled from the spec: the handling of one entry of a poll response
(spec sections 4.3 and 4.4). A running or pending job is kept as pending
for loop continuation. An interrupted job is auto-resumed when its last
execution records no error, no capability is missing, and a connector id
is resolvable; the resume start request carries the resolved connector
and the recorded matching-skip flag, and no retry filter and no tracing
options (as the tests pin). A missing capability or an unresolvable
connector emits the corresponding notification instead. Terminal entries
contribute nothing. The result is the triple of emitted notifications,
issued start requests, and ids kept pending. -/
def processEntry (missingCaps : Bool) (pref : Option String) (s : MigrationStats) :
    List Notice × List StartMigrationRequest × List String :=
  match s.status with
  | .running => ([], [], [s.id])
  | .pending => ([], [], [s.id])
  | .interrupted =>
      if hasRecordedError s then ([], [], [])
      else if missingCaps then ([Notice.missingCapabilities], [], [])
      else
        match resolveConnector pref s with
        | none => ([Notice.noConnector], [], [])
        | some cid =>
            ([],
             [⟨s.id, ⟨cid, s.last_execution.bind (fun le => le.skip_prebuilt_rules_matching)⟩,
               none, none⟩],
             [s.id])
  | .finished => ([], [], [])
  | .error => ([], [], [])
  | .stopped => ([], [], [])

/-- Modelled from the spec: the success notifications of one poll
iteration (spec section 4.4): for every id pending from the previous
iteration whose entry in the current response is finished, one success
notification. -/
def finishNotices (remote : List MigrationStats) (pending : List String) : List Notice :=
  pending.filterMap fun pid =>
    match remote.find? (fun s => s.id == pid) with
    | some s => if s.status = .finished then some (Notice.success pid) else none
    | none => none

/-- Whether the response reports the given job as finished: the entry the
success-notification lookup finds for the id, when there is one, has the
finished status. -/
def finishedInResponse (remote : List MigrationStats) (id : String) : Bool :=
  match remote.find? (fun t => t.id == id) with
  | some s => decide (s.status = SiemMigrationTaskStatus.finished)
  | none => false

/-- Notifications of one poll iteration: the success notifications first,
then the notifications raised while handling each entry, in response
order. -/
def pollNotices (missingCaps : Bool) (pref : Option String)
    (pending : List String) (remote : List MigrationStats) : List Notice :=
  finishNotices remote pending ++
    (remote.map (fun s => (processEntry missingCaps pref s).1)).flatten

/-- Start requests issued by one poll iteration, in response order. -/
def pollStarts (missingCaps : Bool) (pref : Option String)
    (remote : List MigrationStats) : List StartMigrationRequest :=
  (remote.map (fun s => (processEntry missingCaps pref s).2.1)).flatten

/-- Ids kept pending by one poll iteration, in response order. -/
def pollPending (missingCaps : Bool) (pref : Option String)
    (remote : List MigrationStats) : List String :=
  (remote.map (fun s => (processEntry missingCaps pref s).2.2)).flatten

/-- Modelled from the spec: one full poll iteration (spec section 4.4):
notify finished transitions, handle every entry, and compute the pending
set that decides whether the loop is rescheduled. -/
def pollOnce (missingCaps : Bool) (pref : Option String)
    (pending : List String) (remote : List MigrationStats) :
    List Notice × List StartMigrationRequest × List String :=
  (pollNotices missingCaps pref pending remote,
   pollStarts missingCaps pref remote,
   pollPending missingCaps pref remote)

/-- Modelled from the spec: the poll loop (spec section 4.4) run against a
given sequence of successive remote responses, threading the pending ids.
Each executed iteration contributes its notifications and start requests;
the loop reschedules a further iteration only while the pending set is
non-empty. The responses consumed beyond the executed iterations model
polls that are never issued. -/
def runPollsFrom (missingCaps : Bool) (pref : Option String) :
    List String → List (List MigrationStats) → List (List Notice × List StartMigrationRequest)
  | _, [] => []
  | pending, r :: rest =>
      let step := pollOnce missingCaps pref pending r
      (step.1, step.2.1) ::
        (if step.2.2.isEmpty then [] else runPollsFrom missingCaps pref step.2.2 rest)

/-- Modelled from the spec: a fresh poll loop starts with no pending ids,
so the first response never produces a finished-transition
notification. -/
def runPolls (missingCaps : Bool) (pref : Option String)
    (polls : List (List MigrationStats)) : List (List Notice × List StartMigrationRequest) :=
  runPollsFrom missingCaps pref [] polls

/-- Success notifications for a given id across a whole poll run. -/
def successCount (id : String) (run : List (List Notice × List StartMigrationRequest)) : Nat :=
  ((run.map (fun p => p.1)).flatten).count (Notice.success id)

/-- Start requests across a whole poll run, in order. -/
def runStarts (run : List (List Notice × List StartMigrationRequest)) :
    List StartMigrationRequest :=
  (run.map (fun p => p.2)).flatten

/-- Modelled from the spec: the mutable client-side state of the service:
the job ids already observed, in first-observation order (which encodes
the sticky number assignment), and the latest published stats snapshot.
The snapshot slot is the single-slot broadcast channel of spec section 2;
its value is replayed to a new subscriber immediately. -/
structure ServiceState where
  trackedIds : List String
  latestStats : Option (List MigrationTaskStats)
deriving DecidableEq, Repr

/-- Modelled from the spec: the state of a freshly constructed service:
no job observed yet, and the distinguished no-data-yet value (null) in
the latest-stats channel (spec section 3, LatestStats snapshot; the tests
assert the initial value is null). -/
def initialServiceState : ServiceState :=
  ⟨[], none⟩

/-- Modelled from the spec: what a new subscriber of the latest-stats
channel observes immediately upon subscription: the current value of the
single-slot channel. -/
def subscribeLatestStats (st : ServiceState) : Option (List MigrationTaskStats) :=
  st.latestStats

/-- Registration of newly observed ids: ids already tracked keep their
position, unseen ids are appended in the order they appear. -/
def registerIds (tracked : List String) (ids : List String) : List String :=
  ids.foldl (fun acc id => if id ∈ acc then acc else acc ++ [id]) tracked

/-- The 1-based display number of a tracked id: its first-observation
position. -/
def numberOf (tracked : List String) (id : String) : Nat :=
  tracked.indexOf id + 1

/-- Modelled from the spec: `getRuleMigrationsStats()` (spec section 4.3):
fetch the full remote status list (here the parameter `remote`), register
every previously unseen id (assigning it the next number), map each entry
to its client-side view carrying its stable number, publish the resulting
snapshot to the latest-stats channel, and return it together with the
updated state. -/
def getRuleMigrationsStats (st : ServiceState) (remote : List MigrationStats) :
    List MigrationTaskStats × ServiceState :=
  let tracked := registerIds st.trackedIds (remote.map (fun s => s.id))
  let res := remote.map (fun s => ⟨s.id, s.status, s.last_execution, numberOf tracked s.id⟩)
  (res, ⟨tracked, some res⟩)

/-- Modelled from the spec: the observable outcome of one
`startRuleMigration` invocation: the started flag returned to the caller,
the notifications emitted, the remote start requests issued, and whether
the poll loop was (re)started. -/
structure StartOutcome where
  started : Bool
  notices : List Notice
  startCalls : List StartMigrationRequest
  pollingStarted : Bool
deriving DecidableEq, Repr

/-- Modelled from the spec: `startRuleMigration(migrationId, retry?)`
(spec section 4.3). When a capability is missing, notify and return a
started-false result without any remote call and without starting the
poll loop. When no connector id is stored, likewise with the no-connector
notification. Otherwise issue the remote start request with the stored
connector id, no matching-skip flag, the retry filter when supplied and
the stored tracing options, restart the poll loop, and return the remote
response (`remoteStarted` stands for the started flag the remote start
endpoint answers with). Precondition failures are returned, never thrown:
the operation is total. -/
def startRuleMigration (missingCaps : Bool) (connectorPref : Option String)
    (traceOpts : Option TraceOptions) (remoteStarted : Bool)
    (migrationId : String) (retry : Option SiemMigrationRetryFilter) : StartOutcome :=
  if missingCaps then
    ⟨false, [Notice.missingCapabilities], [], false⟩
  else
    match connectorPref with
    | none => ⟨false, [Notice.noConnector], [], false⟩
    | some cid =>
        ⟨remoteStarted, [],
         [⟨migrationId, ⟨cid, none⟩, retry, traceOpts.map langSmithOf⟩],
         true⟩

/-- Test fixture: the interrupted job carrying last-execution values, as
in the resumption unit test. -/
def interruptedWithLastExecution : MigrationStats :=
  ⟨"mig-1", .interrupted, some ⟨some "connector-last", some true, none⟩⟩

/-- Test fixture: the finished form of the same job. -/
def finishedMig : MigrationStats :=
  ⟨"mig-1", .finished, none⟩

/-- Test fixture: the interrupted job whose last execution records an
error, as in the blocked-resumption unit test. -/
def interruptedWithError : MigrationStats :=
  ⟨"mig-1", .interrupted, some ⟨none, none, some "some failure"⟩⟩

/-- Test fixture: the interrupted job with no last-execution record, as in
the no-connector and missing-capabilities unit tests. -/
def interruptedBare : MigrationStats :=
  ⟨"mig-1", .interrupted, none⟩

/-- Test fixture: the running form of the job, as in the polling unit
test. -/
def runningMig : MigrationStats :=
  ⟨"mig-1", .running, none⟩

theorem listChunkFuel_flatten {α : Type _} (B : Nat) (hB : B ≠ 0) :
    ∀ (fuel : Nat) (l : List α), l.length ≤ fuel → (listChunkFuel B fuel l).flatten = l := by
  intro fuel
  induction fuel with
  | zero =>
      intro l h
      have hl : l = [] := List.eq_nil_of_length_eq_zero (Nat.le_zero.mp h)
      subst hl
      simp [listChunkFuel]
  | succ n ih =>
      intro l h
      cases l with
      | nil => simp [listChunkFuel]
      | cons x xs =>
          have hdrop : ((x :: xs).drop B).length ≤ n := by
            simp only [List.length_drop, List.length_cons]
            simp only [List.length_cons] at h
            omega
          simp only [listChunkFuel, List.flatten_cons, ih _ hdrop]
          exact List.take_append_drop B (x :: xs)

theorem listChunk_flatten {α : Type _} (B : Nat) (hB : B ≠ 0) (l : List α) :
    (listChunk B l).flatten = l := by
  simp only [listChunk, if_neg hB]
  exact listChunkFuel_flatten B hB l.length l le_rfl

theorem listChunkFuel50_length {α : Type _} :
    ∀ (fuel : Nat) (l : List α), l.length ≤ fuel →
      (listChunkFuel 50 fuel l).length = (l.length + 49) / 50 := by
  intro fuel
  induction fuel with
  | zero =>
      intro l h
      have hl : l = [] := List.eq_nil_of_length_eq_zero (Nat.le_zero.mp h)
      subst hl
      simp [listChunkFuel]
  | succ n ih =>
      intro l h
      cases l with
      | nil => simp [listChunkFuel]
      | cons x xs =>
          have hdrop : ((x :: xs).drop 50).length ≤ n := by
            simp only [List.length_drop, List.length_cons]
            simp only [List.length_cons] at h
            omega
          simp only [listChunkFuel, List.length_cons, ih _ hdrop, List.length_drop]
          omega

theorem listChunk50_length {α : Type _} (l : List α) :
    (listChunk 50 l).length = (l.length + 49) / 50 := by
  simp only [listChunk, if_neg (by omega : ¬(50 = 0))]
  exact listChunkFuel50_length l.length l le_rfl

theorem filter_isCreate_map_addRules (rid : String) (L : List (List RuleDescriptor)) :
    (L.map (fun c => ApiCall.addRules rid c)).filter ApiCall.isCreate = [] := by
  induction L with
  | nil => rfl
  | cons c cs ih => simp [List.filter_cons, ApiCall.isCreate, ih]

theorem filterMap_addRulesOf_map_addRules (rid : String) (L : List (List RuleDescriptor)) :
    (L.map (fun c => ApiCall.addRules rid c)).filterMap ApiCall.addRulesOf =
      L.map (fun c => (rid, c)) := by
  induction L with
  | nil => rfl
  | cons c cs ih => simpa [ApiCall.addRulesOf] using ih

theorem filterMap_createdBody_map_addRules (rid : String) (L : List (List RuleDescriptor)) :
    (L.map (fun c => ApiCall.addRules rid c)).filterMap ApiCall.createdBody = [] := by
  induction L with
  | nil => rfl
  | cons c cs ih => simp [ApiCall.createdBody, ih]

/-- C1: for every non-empty input of N rule descriptors,
`createRuleMigration` issues exactly one create call, exactly the ceiling
of N over 50 add-rules calls, every add-rules call carries the job id the
create call returned, the concatenation of the submitted chunks in call
order is the original input, and that job id is returned to the caller. -/
theorem createRuleMigration_batches (remoteId : String) (body : List RuleDescriptor)
    (h : body ≠ []) :
    (createRuleMigration remoteId body).1 = .ok remoteId ∧
    ((createRuleMigration remoteId body).2.filter ApiCall.isCreate).length = 1 ∧
    ((createRuleMigration remoteId body).2.filterMap ApiCall.addRulesOf).length =
      (body.length + 49) / 50 ∧
    ((createRuleMigration remoteId body).2.filterMap ApiCall.addRulesOf).map Prod.fst =
      List.replicate ((body.length + 49) / 50) remoteId ∧
    (((createRuleMigration remoteId body).2.filterMap ApiCall.addRulesOf).map
      Prod.snd).flatten = body := by
  have hne : body.isEmpty = false := by
    cases body with
    | nil => exact absurd rfl h
    | cons x xs => rfl
  refine ⟨?_, ?_, ?_, ?_, ?_⟩
  · simp [createRuleMigration, hne]
  · simp [createRuleMigration, hne, List.filter_cons, ApiCall.isCreate,
      filter_isCreate_map_addRules]
  · simp only [createRuleMigration, hne, Bool.false_eq_true, if_false,
      List.filterMap_cons, ApiCall.addRulesOf, ITEMS_PER_BATCH,
      filterMap_addRulesOf_map_addRules, List.length_map]
    exact listChunk50_length body
  · simp only [createRuleMigration, hne, Bool.false_eq_true, if_false,
      List.filterMap_cons, ApiCall.addRulesOf, ITEMS_PER_BATCH,
      filterMap_addRulesOf_map_addRules, List.map_map]
    have hfst : (Prod.fst ∘ fun c : List RuleDescriptor => (remoteId, c)) =
        fun _ => remoteId := rfl
    rw [hfst, List.map_const', listChunk50_length]
  · simp only [createRuleMigration, hne, Bool.false_eq_true, if_false,
      List.filterMap_cons, ApiCall.addRulesOf, ITEMS_PER_BATCH,
      filterMap_addRulesOf_map_addRules, List.map_map]
    have hsnd : (Prod.snd ∘ fun c : List RuleDescriptor => (remoteId, c)) = id := rfl
    rw [hsnd, List.map_id]
    exact listChunk_flatten 50 (by omega) body

/-- Witness for C1 at a concrete three-element input. -/
theorem createRuleMigration_batches_witness :
    (createRuleMigration "mig-1" [⟨"r1"⟩, ⟨"r2"⟩, ⟨"r3"⟩]).1 = .ok "mig-1" ∧
    ((createRuleMigration "mig-1" [⟨"r1"⟩, ⟨"r2"⟩, ⟨"r3"⟩]).2.filter
      ApiCall.isCreate).length = 1 ∧
    ((createRuleMigration "mig-1" [⟨"r1"⟩, ⟨"r2"⟩, ⟨"r3"⟩]).2.filterMap
      ApiCall.addRulesOf).length = ([⟨"r1"⟩, ⟨"r2"⟩, (⟨"r3"⟩ : RuleDescriptor)].length + 49) / 50 ∧
    ((createRuleMigration "mig-1" [⟨"r1"⟩, ⟨"r2"⟩, ⟨"r3"⟩]).2.filterMap
      ApiCall.addRulesOf).map Prod.fst =
      List.replicate (([⟨"r1"⟩, ⟨"r2"⟩, (⟨"r3"⟩ : RuleDescriptor)].length + 49) / 50) "mig-1" ∧
    (((createRuleMigration "mig-1" [⟨"r1"⟩, ⟨"r2"⟩, ⟨"r3"⟩]).2.filterMap
      ApiCall.addRulesOf).map Prod.snd).flatten = [⟨"r1"⟩, ⟨"r2"⟩, ⟨"r3"⟩] :=
  createRuleMigration_batches "mig-1" [⟨"r1"⟩, ⟨"r2"⟩, ⟨"r3"⟩] (by simp)

/-- C5: on the empty input, both `createRuleMigration` and
`upsertMigrationResources` fail synchronously with the empty-input error
and issue zero network calls, whatever id the remote would have answered
or the caller supplied. -/
theorem empty_input_rejected_without_calls (remoteId migrationId : String) :
    createRuleMigration remoteId [] = (.error .emptyRules, []) ∧
    upsertMigrationResources migrationId [] = (.error .emptyRules, []) :=
  ⟨rfl, rfl⟩

/-- C10 counterexample: at the one-element input of the unit test, the
create call does not carry the first chunk as its payload (the trace
records a create call with an empty payload instead). -/
theorem create_call_first_chunk_counterexample :
    ¬ ((createRuleMigration "mig-1" [⟨"rule1"⟩]).2.filterMap ApiCall.createdBody =
      [[(⟨"rule1"⟩ : RuleDescriptor)]]) := by
  decide

/-- C10 amended: when `createRuleMigration` is called (no existing job id
is ever supplied), the create call carries an empty payload, and the
returned job id is captured for the chunk submissions: the first
add-rules call carries the first chunk (of size at most 50) together with
that id. -/
theorem create_call_empty_payload (remoteId : String) (body : List RuleDescriptor)
    (h : body ≠ []) :
    (createRuleMigration remoteId body).2.filterMap ApiCall.createdBody = [[]] ∧
    ((createRuleMigration remoteId body).2.filterMap ApiCall.addRulesOf).head? =
      some (remoteId, body.take 50) := by
  have hne : body.isEmpty = false := by
    cases body with
    | nil => exact absurd rfl h
    | cons x xs => rfl
  refine ⟨?_, ?_⟩
  · simp [createRuleMigration, hne, ApiCall.createdBody, filterMap_createdBody_map_addRules]
  · simp only [createRuleMigration, hne, Bool.false_eq_true, if_false, List.filterMap_cons,
      ApiCall.addRulesOf, ITEMS_PER_BATCH, filterMap_addRulesOf_map_addRules]
    cases body with
    | nil => exact absurd rfl h
    | cons x xs => simp [listChunk, listChunkFuel]

/-- Witness for the C10 amended claim at the one-element input of the
unit test. -/
theorem create_call_empty_payload_witness :
    (createRuleMigration "mig-1" [⟨"rule1"⟩]).2.filterMap ApiCall.createdBody = [[]] ∧
    ((createRuleMigration "mig-1" [⟨"rule1"⟩]).2.filterMap ApiCall.addRulesOf).head? =
      some ("mig-1", ([(⟨"rule1"⟩ : RuleDescriptor)]).take 50) :=
  create_call_empty_payload "mig-1" [⟨"rule1"⟩] (by simp)

/-- C2: for the poll sequence of one response holding the interrupted job
with a last execution recording connector-last and the matching-skip flag
and no error, followed by the finished response, with no missing
capability and connector-123 stored, the remote start API is called
exactly once, with migration id mig-1 and settings carrying connector-last
and the matching-skip flag, and the request holds no retry field and no
tracing options. -/
theorem interrupted_resume_uses_last_execution :
    runStarts (runPolls false (some "connector-123")
      [[interruptedWithLastExecution], [finishedMig]]) =
      [⟨"mig-1", ⟨"connector-last", some true⟩, none, none⟩] := by
  decide

/-- C9: for a freshly constructed service, before the first poll
completes, the latest-stats channel holds the distinguished null value,
the value a new subscriber is delivered immediately, and that value is
distinguishable from an empty job list. -/
theorem latestStats_initially_null :
    subscribeLatestStats initialServiceState = none ∧
    subscribeLatestStats initialServiceState ≠ some [] := by
  exact ⟨rfl, by simp [subscribeLatestStats, initialServiceState]⟩

/-- C4: `startRuleMigration` calls the remote start API and returns a
started-true result exactly when no capability is missing and a connector
id is resolvable from the preference store; in either failure case it
emits exactly one notification and returns started-false with no remote
start call and no poll restart (and, the operation being total, without
throwing); in the success case the single start call carries the stored
connector id, the supplied retry filter and the stored tracing options,
and the poll loop is restarted. `remoteStarted = true` states that the
remote transport answers the start call successfully, as in the unit
tests. -/
theorem startRuleMigration_spec (missingCaps : Bool) (pref : Option String)
    (traceOpts : Option TraceOptions) (remoteStarted : Bool)
    (migrationId : String) (retry : Option SiemMigrationRetryFilter)
    (hr : remoteStarted = true) :
    (((startRuleMigration missingCaps pref traceOpts remoteStarted migrationId retry).started
        = true ∧
      (startRuleMigration missingCaps pref traceOpts remoteStarted migrationId retry).startCalls
        ≠ []) ↔
      (missingCaps = false ∧ pref.isSome = true)) ∧
    (missingCaps = true ∨ pref = none →
      (startRuleMigration missingCaps pref traceOpts remoteStarted migrationId retry).started
        = false ∧
      (startRuleMigration missingCaps pref traceOpts remoteStarted migrationId retry).startCalls
        = [] ∧
      (startRuleMigration missingCaps pref traceOpts remoteStarted migrationId retry).notices.length
        = 1 ∧
      (startRuleMigration missingCaps pref traceOpts remoteStarted migrationId retry).pollingStarted
        = false) ∧
    (missingCaps = false → pref.isSome = true →
      (startRuleMigration missingCaps pref traceOpts remoteStarted migrationId retry).startCalls
        = [⟨migrationId, ⟨pref.getD "", none⟩, retry, traceOpts.map langSmithOf⟩] ∧
      (startRuleMigration missingCaps pref traceOpts remoteStarted migrationId retry).notices
        = [] ∧
      (startRuleMigration missingCaps pref traceOpts remoteStarted migrationId retry).pollingStarted
        = true ∧
      (startRuleMigration missingCaps pref traceOpts remoteStarted migrationId retry).started
        = true) := by
  subst hr
  cases missingCaps with
  | true => simp [startRuleMigration]
  | false =>
      cases pref with
      | none => simp [startRuleMigration]
      | some cid => simp [startRuleMigration]

/-- Witness for C4 at the concrete inputs of the successful-start unit
test. -/
theorem startRuleMigration_spec_witness :
    (((startRuleMigration false (some "connector-123") (some ⟨"proj", "key"⟩) true "mig-1"
        (some .notFullyTranslated)).started = true ∧
      (startRuleMigration false (some "connector-123") (some ⟨"proj", "key"⟩) true "mig-1"
        (some .notFullyTranslated)).startCalls ≠ []) ↔
      (false = false ∧ (some "connector-123").isSome = true)) ∧
    (false = true ∨ some "connector-123" = none →
      (startRuleMigration false (some "connector-123") (some ⟨"proj", "key"⟩) true "mig-1"
        (some .notFullyTranslated)).started = false ∧
      (startRuleMigration false (some "connector-123") (some ⟨"proj", "key"⟩) true "mig-1"
        (some .notFullyTranslated)).startCalls = [] ∧
      (startRuleMigration false (some "connector-123") (some ⟨"proj", "key"⟩) true "mig-1"
        (some .notFullyTranslated)).notices.length = 1 ∧
      (startRuleMigration false (some "connector-123") (some ⟨"proj", "key"⟩) true "mig-1"
        (some .notFullyTranslated)).pollingStarted = false) ∧
    (false = false → (some "connector-123").isSome = true →
      (startRuleMigration false (some "connector-123") (some ⟨"proj", "key"⟩) true "mig-1"
        (some .notFullyTranslated)).startCalls =
        [⟨"mig-1", ⟨(some "connector-123").getD "", none⟩, some .notFullyTranslated,
          (some (⟨"proj", "key"⟩ : TraceOptions)).map langSmithOf⟩] ∧
      (startRuleMigration false (some "connector-123") (some ⟨"proj", "key"⟩) true "mig-1"
        (some .notFullyTranslated)).notices = [] ∧
      (startRuleMigration false (some "connector-123") (some ⟨"proj", "key"⟩) true "mig-1"
        (some .notFullyTranslated)).pollingStarted = true ∧
      (startRuleMigration false (some "connector-123") (some ⟨"proj", "key"⟩) true "mig-1"
        (some .notFullyTranslated)).started = true) :=
  startRuleMigration_spec false (some "connector-123") (some ⟨"proj", "key"⟩) true "mig-1"
    (some .notFullyTranslated) rfl

theorem pollPending_nil (mc : Bool) (pref : Option String) :
    pollPending mc pref [] = [] := rfl

theorem pollPending_cons (mc : Bool) (pref : Option String)
    (s : MigrationStats) (ss : List MigrationStats) :
    pollPending mc pref (s :: ss) =
      (processEntry mc pref s).2.2 ++ pollPending mc pref ss := by
  simp [pollPending]

theorem pollStarts_nil (mc : Bool) (pref : Option String) :
    pollStarts mc pref [] = [] := rfl

theorem pollStarts_cons (mc : Bool) (pref : Option String)
    (s : MigrationStats) (ss : List MigrationStats) :
    pollStarts mc pref (s :: ss) =
      (processEntry mc pref s).2.1 ++ pollStarts mc pref ss := by
  simp [pollStarts]

theorem processEntry_pending_shape (mc : Bool) (pref : Option String) (s : MigrationStats) :
    (processEntry mc pref s).2.2 = [] ∨ (processEntry mc pref s).2.2 = [s.id] := by
  cases hst : s.status with
  | running => right; simp [processEntry, hst]
  | pending => right; simp [processEntry, hst]
  | interrupted =>
      simp only [processEntry, hst]
      by_cases he : hasRecordedError s
      · left; simp [he]
      · simp only [he, Bool.false_eq_true, if_false]
        cases mc with
        | true => left; simp
        | false =>
            simp only [Bool.false_eq_true, if_false]
            cases hrc : resolveConnector pref s with
            | none => left; simp
            | some cid => right; simp
  | finished => left; simp [processEntry, hst]
  | error => left; simp [processEntry, hst]
  | stopped => left; simp [processEntry, hst]

theorem processEntry_pending_of_finished (mc : Bool) (pref : Option String)
    (s : MigrationStats) (hst : s.status = .finished) :
    (processEntry mc pref s).2.2 = [] := by
  simp [processEntry, hst]

theorem processEntry_pending_of_running (mc : Bool) (pref : Option String)
    (s : MigrationStats) (hst : s.status = .running) :
    (processEntry mc pref s).2.2 = [s.id] := by
  simp [processEntry, hst]

theorem pollPending_eq_nil_of_terminal (mc : Bool) (pref : Option String)
    (remote : List MigrationStats)
    (h : ∀ s ∈ remote, s.status = .finished ∨ s.status = .error ∨ s.status = .stopped) :
    pollPending mc pref remote = [] := by
  induction remote with
  | nil => rfl
  | cons s ss ih =>
      rw [pollPending_cons]
      have hs := h s (by simp)
      have hrest : pollPending mc pref ss = [] :=
        ih (fun t ht => h t (by simp [ht]))
      rcases hs with h1 | h1 | h1 <;> simp [processEntry, h1, hrest]

/-- C8: after a poll iteration whose response reports every job in a
terminal state, the loop schedules no further iteration: against any
sequence of further would-be responses, exactly one iteration executes. -/
theorem poll_stops_when_all_terminal (mc : Bool) (pref : Option String)
    (pending : List String) (r : List MigrationStats) (rest : List (List MigrationStats))
    (h : ∀ s ∈ r, s.status = .finished ∨ s.status = .error ∨ s.status = .stopped) :
    (runPollsFrom mc pref pending (r :: rest)).length = 1 := by
  have hp : pollPending mc pref r = [] := pollPending_eq_nil_of_terminal mc pref r h
  simp [runPollsFrom, pollOnce, hp]

/-- Witness for C8: the all-finished response of the polling unit test
followed by a further response that is never fetched. -/
theorem poll_stops_when_all_terminal_witness :
    (runPollsFrom false (some "connector-123") ["mig-1"]
      [[finishedMig], [runningMig]]).length = 1 :=
  poll_stops_when_all_terminal false (some "connector-123") ["mig-1"]
    [finishedMig] [[runningMig]] (by decide)

theorem mem_processEntry_starts (mc : Bool) (pref : Option String)
    (s : MigrationStats) (c : StartMigrationRequest)
    (hc : c ∈ (processEntry mc pref s).2.1) :
    s.status = .interrupted ∧ hasRecordedError s = false ∧ mc = false ∧
      resolveConnector pref s = some c.settings.connectorId ∧ c.migrationId = s.id := by
  cases hst : s.status with
  | interrupted =>
      simp only [processEntry, hst] at hc
      cases he : hasRecordedError s with
      | true => simp [he] at hc
      | false =>
          simp only [he, Bool.false_eq_true, if_false] at hc
          cases mc with
          | true => simp at hc
          | false =>
              simp only [Bool.false_eq_true, if_false] at hc
              cases hrc : resolveConnector pref s with
              | none => simp [hrc] at hc
              | some cid =>
                  simp only [hrc, List.mem_singleton] at hc
                  subst hc
                  exact ⟨rfl, rfl, rfl, by simp [hrc], rfl⟩
  | running => simp [processEntry, hst] at hc
  | pending => simp [processEntry, hst] at hc
  | finished => simp [processEntry, hst] at hc
  | error => simp [processEntry, hst] at hc
  | stopped => simp [processEntry, hst] at hc

theorem mem_pollStarts (mc : Bool) (pref : Option String)
    (remote : List MigrationStats) (c : StartMigrationRequest)
    (hc : c ∈ pollStarts mc pref remote) :
    ∃ s ∈ remote, s.status = .interrupted ∧ hasRecordedError s = false ∧ mc = false ∧
      resolveConnector pref s = some c.settings.connectorId ∧ c.migrationId = s.id := by
  induction remote with
  | nil => simp [pollStarts] at hc
  | cons s ss ih =>
      rw [pollStarts_cons, List.mem_append] at hc
      rcases hc with hc | hc
      · exact ⟨s, by simp, mem_processEntry_starts mc pref s c hc⟩
      · obtain ⟨t, ht, hprops⟩ := ih hc
        exact ⟨t, by simp [ht], hprops⟩

/-- C3: for any poll iteration, if every entry of the response that
reports the given job as interrupted fails one of the three resumption
preconditions — a recorded last-execution error, a missing capability, or
no resolvable connector id — then the iteration issues no remote start
call for that job. -/
theorem interrupted_resume_blocked (mc : Bool) (pref : Option String)
    (pending : List String) (remote : List MigrationStats) (jobId : String)
    (h : ∀ s ∈ remote, s.id = jobId → s.status = .interrupted →
      hasRecordedError s = true ∨ mc = true ∨ resolveConnector pref s = none) :
    jobId ∉ ((pollOnce mc pref pending remote).2.1).map
      (fun c => c.migrationId) := by
  intro hmem
  obtain ⟨c, hc, hid⟩ := List.mem_map.mp hmem
  obtain ⟨s, hs, hint, herr, hmc, hconn, hcid⟩ := mem_pollStarts mc pref remote c hc
  have hsid : s.id = jobId := by rw [← hcid, hid]
  rcases h s hs hsid hint with hbad | hbad | hbad
  · rw [herr] at hbad; exact Bool.false_ne_true hbad
  · rw [hmc] at hbad; exact Bool.false_ne_true hbad
  · rw [hconn] at hbad; exact Option.some_ne_none _ hbad

/-- Witness for C3: the interrupted job with a recorded error from the
blocked-resumption unit test, a stored connector and no missing
capability; no start call for mig-1 is issued. -/
theorem interrupted_resume_blocked_witness :
    "mig-1" ∉ ((pollOnce false (some "connector-123") []
      [interruptedWithError]).2.1).map (fun c => c.migrationId) :=
  interrupted_resume_blocked false (some "connector-123") [] [interruptedWithError]
    "mig-1" (by decide)

theorem finishNotices_cons_finished (remote : List MigrationStats)
    (p : String) (ps : List String) (h : finishedInResponse remote p = true) :
    finishNotices remote (p :: ps) = Notice.success p :: finishNotices remote ps := by
  unfold finishedInResponse at h
  unfold finishNotices
  rw [List.filterMap_cons]
  cases hfind : remote.find? (fun t => t.id == p) with
  | none => rw [hfind] at h; exact absurd h (by simp)
  | some s =>
      rw [hfind] at h
      have hfin : s.status = .finished := by simpa using h
      simp [hfin]

theorem finishNotices_cons_not_finished (remote : List MigrationStats)
    (p : String) (ps : List String) (h : finishedInResponse remote p = false) :
    finishNotices remote (p :: ps) = finishNotices remote ps := by
  unfold finishedInResponse at h
  unfold finishNotices
  rw [List.filterMap_cons]
  cases hfind : remote.find? (fun t => t.id == p) with
  | none => rfl
  | some s =>
      rw [hfind] at h
      have hfin : ¬(s.status = .finished) := by simpa using h
      simp [hfin]

theorem count_success_finishNotices (remote : List MigrationStats)
    (pending : List String) (id : String) :
    (finishNotices remote pending).count (Notice.success id) =
      if finishedInResponse remote id = true then pending.count id else 0 := by
  induction pending with
  | nil => simp [finishNotices]
  | cons p ps ih =>
      by_cases hf : finishedInResponse remote p = true
      · rw [finishNotices_cons_finished remote p ps hf]
        by_cases hp : p = id
        · subst hp
          simp [List.count_cons, hf, ih]
        · simp [List.count_cons, hp, ih, fun h : Notice.success p = Notice.success id =>
            hp (Notice.success.inj h)]
      · have hf2 : finishedInResponse remote p = false := by
          simpa using hf
        rw [finishNotices_cons_not_finished remote p ps hf2]
        by_cases hp : p = id
        · subst hp
          simp [hf2, ih]
        · simp [List.count_cons, hp, ih]

theorem count_success_processEntry (mc : Bool) (pref : Option String)
    (s : MigrationStats) (id : String) :
    ((processEntry mc pref s).1).count (Notice.success id) = 0 := by
  cases hst : s.status with
  | interrupted =>
      simp only [processEntry, hst]
      cases he : hasRecordedError s with
      | true => simp
      | false =>
          cases mc with
          | true => simp
          | false =>
              cases hrc : resolveConnector pref s with
              | none => simp
              | some cid => simp
  | running => simp [processEntry, hst]
  | pending => simp [processEntry, hst]
  | finished => simp [processEntry, hst]
  | error => simp [processEntry, hst]
  | stopped => simp [processEntry, hst]

theorem count_success_pollNotices (mc : Bool) (pref : Option String)
    (pending : List String) (remote : List MigrationStats) (id : String) :
    (pollNotices mc pref pending remote).count (Notice.success id) =
      (finishNotices remote pending).count (Notice.success id) := by
  have hflat : ∀ rs : List MigrationStats,
      ((rs.map (fun s => (processEntry mc pref s).1)).flatten).count (Notice.success id)
        = 0 := by
    intro rs
    induction rs with
    | nil => rfl
    | cons s ss ih =>
        simp only [List.map_cons, List.flatten_cons, List.count_append, ih,
          count_success_processEntry, Nat.add_zero]
  simp [pollNotices, List.count_append, hflat]

theorem not_mem_pollPending (mc : Bool) (pref : Option String)
    (remote : List MigrationStats) (id : String)
    (h : ∀ s ∈ remote, s.id = id → (processEntry mc pref s).2.2 = []) :
    id ∉ pollPending mc pref remote := by
  induction remote with
  | nil => simp [pollPending]
  | cons s ss ih =>
      rw [pollPending_cons]
      intro hmem
      rcases List.mem_append.mp hmem with hmem | hmem
      · by_cases hsid : s.id = id
        · rw [h s (by simp) hsid] at hmem
          exact List.not_mem_nil id hmem
        · rcases processEntry_pending_shape mc pref s with hsh | hsh <;> rw [hsh] at hmem
          · exact List.not_mem_nil id hmem
          · exact hsid (List.mem_singleton.mp hmem).symm
      · exact ih (fun t ht htid => h t (by simp [ht]) htid) hmem

theorem not_mem_pollPending_of_finished (mc : Bool) (pref : Option String)
    (remote : List MigrationStats) (id : String)
    (h : ∀ s ∈ remote, s.id = id → s.status = .finished) :
    id ∉ pollPending mc pref remote :=
  not_mem_pollPending mc pref remote id
    (fun s hs hid => processEntry_pending_of_finished mc pref s (h s hs hid))

theorem count_pollPending_one (mc : Bool) (pref : Option String)
    (remote : List MigrationStats) (id : String)
    (hcount : remote.countP (fun s => s.id == id) = 1)
    (hrun : ∀ s ∈ remote, s.id = id → s.status = .running) :
    (pollPending mc pref remote).count id = 1 := by
  induction remote with
  | nil => simp at hcount
  | cons s ss ih =>
      rw [pollPending_cons, List.count_append]
      by_cases hsid : s.id = id
      · rw [List.countP_cons] at hcount
        simp only [hsid, beq_self_eq_true, if_pos, Nat.add_left_eq_self,
          List.countP_eq_zero] at hcount
        have hnot : id ∉ pollPending mc pref ss := by
          refine not_mem_pollPending mc pref ss id (fun t ht htid => ?_)
          exact absurd htid (by simpa using hcount t ht)
        rw [List.count_eq_zero.mpr hnot]
        rw [processEntry_pending_of_running mc pref s (hrun s (by simp) hsid), hsid]
        simp
      · have hcount2 : ss.countP (fun s => s.id == id) = 1 := by
          rw [List.countP_cons] at hcount
          simpa [hsid] using hcount
        have hc0 : ((processEntry mc pref s).2.2).count id = 0 := by
          rcases processEntry_pending_shape mc pref s with hsh | hsh <;> rw [hsh]
          · rfl
          · simp [List.count_cons, hsid]
        rw [hc0, ih hcount2 (fun t ht htid => hrun t (by simp [ht]) htid)]

theorem runPollsFrom_cons (mc : Bool) (pref : Option String) (pending : List String)
    (r : List MigrationStats) (rest : List (List MigrationStats)) :
    runPollsFrom mc pref pending (r :: rest) =
      (pollNotices mc pref pending r, pollStarts mc pref r) ::
        (if (pollPending mc pref r).isEmpty then []
         else runPollsFrom mc pref (pollPending mc pref r) rest) := rfl

theorem successCount_cons (id : String) (n : List Notice)
    (c : List StartMigrationRequest)
    (rest : List (List Notice × List StartMigrationRequest)) :
    successCount id ((n, c) :: rest) =
      n.count (Notice.success id) + successCount id rest := by
  simp [successCount]

theorem finishedInResponse_eq_false (remote : List MigrationStats) (id : String)
    (h : ∀ s ∈ remote, s.id = id → s.status ≠ .finished) :
    finishedInResponse remote id = false := by
  unfold finishedInResponse
  cases hfind : remote.find? (fun t => t.id == id) with
  | none => rfl
  | some s =>
      have hmem := List.mem_of_find?_eq_some hfind
      have hsid : s.id = id := by simpa using List.find?_some hfind
      simpa using h s hmem hsid

theorem finishedInResponse_eq_true (remote : List MigrationStats) (id : String)
    (hex : ∃ s ∈ remote, s.id = id)
    (h : ∀ s ∈ remote, s.id = id → s.status = .finished) :
    finishedInResponse remote id = true := by
  unfold finishedInResponse
  cases hfind : remote.find? (fun t => t.id == id) with
  | none =>
      obtain ⟨s, hs, hsid⟩ := hex
      have hnone := List.find?_eq_none.mp hfind s hs
      simp [hsid] at hnone
  | some s =>
      have hmem := List.mem_of_find?_eq_some hfind
      have hsid : s.id = id := by simpa using List.find?_some hfind
      simp [h s hmem hsid]

theorem successCount_zero_run (mc : Bool) (pref : Option String) (id : String) :
    ∀ (polls : List (List MigrationStats)) (pending : List String),
      id ∉ pending →
      (∀ r ∈ polls, ∀ s ∈ r, s.id = id → s.status = .finished) →
      successCount id (runPollsFrom mc pref pending polls) = 0 := by
  intro polls
  induction polls with
  | nil => intro pending _ _; rfl
  | cons r rest ih =>
      intro pending hpend hall
      rw [runPollsFrom_cons, successCount_cons]
      have hn : (pollNotices mc pref pending r).count (Notice.success id) = 0 := by
        rw [count_success_pollNotices, count_success_finishNotices,
          List.count_eq_zero.mpr hpend]
        simp
      rw [hn, Nat.zero_add]
      by_cases hemp : (pollPending mc pref r).isEmpty = true
      · simp only [hemp, if_pos]
        rfl
      · simp only [hemp, Bool.false_eq_true, if_false]
        exact ih (pollPending mc pref r)
          (not_mem_pollPending_of_finished mc pref r id (hall r (by simp)))
          (fun r2 hr2 => hall r2 (by simp [hr2]))

/-- C7: in a poll run where the job is reported running with a single
entry on one poll, finished on the next, and finished (when present at
all) on every later poll, exactly one success notification is emitted for
that completion across the whole run. -/
theorem finish_notified_once (mc : Bool) (pref : Option String)
    (pending : List String) (p₀ p₁ : List MigrationStats)
    (rest : List (List MigrationStats)) (id : String)
    (h0 : ∀ s ∈ p₀, s.id = id → s.status = .running)
    (hc0 : p₀.countP (fun s => s.id == id) = 1)
    (h1 : ∀ s ∈ p₁, s.id = id → s.status = .finished)
    (he1 : ∃ s ∈ p₁, s.id = id)
    (hrest : ∀ r ∈ rest, ∀ s ∈ r, s.id = id → s.status = .finished) :
    successCount id (runPollsFrom mc pref pending (p₀ :: p₁ :: rest)) = 1 := by
  rw [runPollsFrom_cons, successCount_cons]
  have hn0 : (pollNotices mc pref pending p₀).count (Notice.success id) = 0 := by
    rw [count_success_pollNotices, count_success_finishNotices,
      finishedInResponse_eq_false p₀ id (fun s hs hsid => by simp [h0 s hs hsid])]
    simp
  rw [hn0, Nat.zero_add]
  have hcnt1 : (pollPending mc pref p₀).count id = 1 :=
    count_pollPending_one mc pref p₀ id hc0 h0
  have hne : (pollPending mc pref p₀).isEmpty = false := by
    cases hps : pollPending mc pref p₀ with
    | nil => rw [hps] at hcnt1; simp at hcnt1
    | cons a l => simp
  rw [hne]
  simp only [Bool.false_eq_true, if_false]
  rw [runPollsFrom_cons, successCount_cons]
  have hn1 : (pollNotices mc pref (pollPending mc pref p₀) p₁).count
      (Notice.success id) = 1 := by
    rw [count_success_pollNotices, count_success_finishNotices,
      finishedInResponse_eq_true p₁ id he1 h1]
    simp [hcnt1]
  rw [hn1]
  have hzero : successCount id
      (if (pollPending mc pref p₁).isEmpty then []
       else runPollsFrom mc pref (pollPending mc pref p₁) rest) = 0 := by
    by_cases hemp : (pollPending mc pref p₁).isEmpty = true
    · simp only [hemp, if_pos]
      rfl
    · simp only [hemp, Bool.false_eq_true, if_false]
      exact successCount_zero_run mc pref id rest (pollPending mc pref p₁)
        (not_mem_pollPending_of_finished mc pref p₁ id h1) hrest
  rw [hzero]

/-- Witness for C7: the running-then-finished poll sequence of the unit
test produces exactly one success notification for mig-1. -/
theorem finish_notified_once_witness :
    successCount "mig-1" (runPollsFrom false (some "connector-123") []
      [[runningMig], [finishedMig]]) = 1 :=
  finish_notified_once false (some "connector-123") [] [runningMig] [finishedMig] []
    "mig-1" (by decide) (by decide) (by decide) (by decide) (by decide)

theorem registerIds_append (ids : List String) :
    ∀ tracked : List String, ∃ ext, registerIds tracked ids = tracked ++ ext := by
  induction ids with
  | nil => intro tracked; exact ⟨[], by simp [registerIds]⟩
  | cons i is ih =>
      intro tracked
      by_cases hi : i ∈ tracked
      · obtain ⟨ext, hext⟩ := ih tracked
        exact ⟨ext, by simp [registerIds, hi] at hext ⊢; exact hext⟩
      · obtain ⟨ext, hext⟩ := ih (tracked ++ [i])
        refine ⟨[i] ++ ext, ?_⟩
        simp only [registerIds, hi, if_false, List.foldl_cons] at hext ⊢
        rw [← List.append_assoc]
        exact hext

theorem numberOf_stable (tracked ids : List String) (id : String) (hmem : id ∈ tracked) :
    numberOf (registerIds tracked ids) id = numberOf tracked id := by
  obtain ⟨ext, hext⟩ := registerIds_append ids tracked
  rw [hext]
  unfold numberOf
  rw [List.indexOf_append_of_mem hmem]

theorem registerIds_nodup (ids : List String) :
    ∀ tracked : List String, tracked.Nodup → (registerIds tracked ids).Nodup := by
  induction ids with
  | nil => intro tracked h; simpa [registerIds] using h
  | cons i is ih =>
      intro tracked h
      by_cases hi : i ∈ tracked
      · simpa [registerIds, hi] using ih tracked h
      · have h2 : (tracked ++ [i]).Nodup := by
          simp [List.nodup_append, h, hi]
        simpa [registerIds, hi] using ih (tracked ++ [i]) h2

theorem map_indexOf_nodup (l : List String) (h : l.Nodup) :
    l.map (fun id => l.indexOf id) = List.range l.length := by
  induction l with
  | nil => rfl
  | cons a as ih =>
      have hna : a ∉ as := (List.nodup_cons.mp h).1
      have hnd : as.Nodup := (List.nodup_cons.mp h).2
      rw [List.map_cons, List.indexOf_cons_self, List.length_cons,
        List.range_succ_eq_map]
      congr 1
      have hstep : as.map (fun id => (a :: as).indexOf id) =
          as.map (fun id => as.indexOf id + 1) := by
        refine List.map_congr_left (fun b hb => ?_)
        have hab : a ≠ b := fun hab => hna (by rw [hab]; exact hb)
        exact List.indexOf_cons_ne as hab
      rw [hstep, ← ih hnd, List.map_map]
      rfl

theorem map_numberOf_nodup (l : List String) (h : l.Nodup) :
    l.map (numberOf l) = (List.range l.length).map (fun i => i + 1) := by
  unfold numberOf
  rw [← map_indexOf_nodup l h, List.map_map]
  rfl

theorem registerIds_fresh (ids : List String) :
    ∀ tracked : List String, (∀ i ∈ ids, i ∉ tracked) → ids.Nodup →
      registerIds tracked ids = tracked ++ ids := by
  induction ids with
  | nil => intro tracked _ _; simp [registerIds]
  | cons i is ih =>
      intro tracked hfresh hnd
      have hi : i ∉ tracked := hfresh i (by simp)
      have hfresh2 : ∀ j ∈ is, j ∉ tracked ++ [i] := by
        intro j hj
        simp only [List.mem_append, List.mem_singleton]
        rintro (hjt | hji)
        · exact hfresh j (by simp [hj]) hjt
        · exact (List.nodup_cons.mp hnd).1 (hji ▸ hj)
      have := ih (tracked ++ [i]) hfresh2 (List.nodup_cons.mp hnd).2
      simp only [registerIds, hi, if_false, List.foldl_cons] at this ⊢
      rw [this, List.append_assoc]
      rfl

/-- C6: `getRuleMigrationsStats` publishes exactly the snapshot it
returns, keeps the number of every already-seen job id unchanged, keeps
the tracked id list duplicate-free so distinct job ids never share a
number, and, on the first call of a fresh service with distinct remote
ids, assigns 1-based numbers in the order the remote list returns the
jobs. -/
theorem getRuleMigrationsStats_numbering (st : ServiceState)
    (remote : List MigrationStats) (hnd : st.trackedIds.Nodup) :
    (getRuleMigrationsStats st remote).2.latestStats =
      some (getRuleMigrationsStats st remote).1 ∧
    st.trackedIds.map
        (numberOf (registerIds st.trackedIds (remote.map (fun s => s.id)))) =
      st.trackedIds.map (numberOf st.trackedIds) ∧
    (registerIds st.trackedIds (remote.map (fun s => s.id))).Nodup ∧
    ((registerIds st.trackedIds (remote.map (fun s => s.id))).map
      (numberOf (registerIds st.trackedIds (remote.map (fun s => s.id))))).Nodup ∧
    (st.trackedIds = [] → (remote.map (fun s => s.id)).Nodup →
      (getRuleMigrationsStats st remote).1.map (fun r => r.number) =
        (List.range remote.length).map (fun i => i + 1)) := by
  have hT : (registerIds st.trackedIds (remote.map (fun s => s.id))).Nodup :=
    registerIds_nodup (remote.map (fun s => s.id)) st.trackedIds hnd
  refine ⟨rfl, ?_, hT, ?_, ?_⟩
  · exact List.map_congr_left
      (fun id hid => numberOf_stable st.trackedIds (remote.map (fun s => s.id)) id hid)
  · rw [map_numberOf_nodup _ hT]
    exact (List.nodup_range _).map (fun a b => by omega)
  · intro hempty hids
    have hreg : registerIds st.trackedIds (remote.map (fun s => s.id)) =
        remote.map (fun s => s.id) := by
      rw [hempty]
      simpa using registerIds_fresh (remote.map (fun s => s.id)) [] (by simp) hids
    simp only [getRuleMigrationsStats, List.map_map]
    show remote.map (fun s : MigrationStats =>
        numberOf (registerIds st.trackedIds (remote.map (fun t => t.id))) s.id) =
      (List.range remote.length).map (fun i => i + 1)
    have hstep : remote.map (fun s : MigrationStats =>
        numberOf (registerIds st.trackedIds (remote.map (fun t => t.id))) s.id) =
        (remote.map (fun s : MigrationStats => s.id)).map
          (numberOf (registerIds st.trackedIds (remote.map (fun t => t.id)))) := by
      rw [List.map_map]
      rfl
    rw [hstep, hreg, map_numberOf_nodup _ hids, List.length_map]

/-- Witness for C6 at the two-job response of the stats unit test,
starting from the fresh service state. -/
theorem getRuleMigrationsStats_numbering_witness :
    (getRuleMigrationsStats initialServiceState
        [⟨"mig-1", .running, none⟩, ⟨"mig-2", .finished, none⟩]).2.latestStats =
      some (getRuleMigrationsStats initialServiceState
        [⟨"mig-1", .running, none⟩, ⟨"mig-2", .finished, none⟩]).1 ∧
    initialServiceState.trackedIds.map
        (numberOf (registerIds initialServiceState.trackedIds
          ([⟨"mig-1", .running, none⟩,
            (⟨"mig-2", .finished, none⟩ : MigrationStats)].map (fun s => s.id)))) =
      initialServiceState.trackedIds.map (numberOf initialServiceState.trackedIds) ∧
    (registerIds initialServiceState.trackedIds
      ([⟨"mig-1", .running, none⟩,
        (⟨"mig-2", .finished, none⟩ : MigrationStats)].map (fun s => s.id))).Nodup ∧
    ((registerIds initialServiceState.trackedIds
        ([⟨"mig-1", .running, none⟩,
          (⟨"mig-2", .finished, none⟩ : MigrationStats)].map (fun s => s.id))).map
      (numberOf (registerIds initialServiceState.trackedIds
        ([⟨"mig-1", .running, none⟩,
          (⟨"mig-2", .finished, none⟩ : MigrationStats)].map (fun s => s.id))))).Nodup ∧
    (initialServiceState.trackedIds = [] →
      ([⟨"mig-1", .running, none⟩,
        (⟨"mig-2", .finished, none⟩ : MigrationStats)].map (fun s => s.id)).Nodup →
      (getRuleMigrationsStats initialServiceState
          [⟨"mig-1", .running, none⟩, ⟨"mig-2", .finished, none⟩]).1.map
        (fun r => r.number) =
        (List.range ([⟨"mig-1", .running, none⟩,
          (⟨"mig-2", .finished, none⟩ : MigrationStats)].length)).map (fun i => i + 1)) :=
  getRuleMigrationsStats_numbering initialServiceState
    [⟨"mig-1", .running, none⟩, ⟨"mig-2", .finished, none⟩] (by simp [initialServiceState])

end SiemRulesMigrations
